import Mathlib

/-!
# Verification of the VerifiAI credibility-scoring engine

A shallow embedding of the scoring-and-explanation engine of the VerifiAI
backend (`app/model.py`, `app/main.py`, `app/factcheck.py`), together with
proofs settling the specification claims.

Modelling conventions:
* Python strings are lists of characters (`Text := List Char`);
* Python floats are exact rationals (`ℚ`); `round` is modelled by
  round-half-to-even (`pyRound`), as in Python;
* the external language-analysis provider result is an `Option Analysis`
  argument (`none` models "client creation or the analysis call failed");
* dictionaries with optional keys become structures with `Option` fields.
-/

namespace VerifiAI

/-- Python strings are modelled as lists of characters. -/
abbrev Text := List Char

/-- Convenience conversion from Lean string literals. -/
def txt (s : String) : Text := s.toList

/-- `str.lower()` (ASCII case mapping). -/
def pyLower (t : Text) : Text := t.map Char.toLower

/-- `str.strip()`: drop whitespace from both ends. -/
def pyStrip (t : Text) : Text :=
  ((t.dropWhile Char.isWhitespace).reverse.dropWhile Char.isWhitespace).reverse

/-- The fixed sensational vocabulary (`SENSATIONAL` in `model.py`). -/
def SENSATIONAL : List Text :=
  [txt "shocking", txt "unbelievable", txt "exposed", txt "scandal", txt "meltdown",
   txt "destroyed", txt "bombshell", txt "secretly", txt "banned", txt "miracle",
   txt "cure", txt "guaranteed", txt "instant"]

/-- Membership in the ASCII-letter class `[a-zA-Z]`. -/
def isAsciiLetter (c : Char) : Bool :=
  ('a' ≤ c && c ≤ 'z') || ('A' ≤ c && c ≤ 'Z')

/-- Maximal runs of characters satisfying `p`: the matches of `re.findall`
for a character-class regex such as `[a-zA-Z]+`. -/
def splitRuns (p : Char → Bool) : List Char → List (List Char)
  | [] => []
  | c :: cs =>
    let rest := splitRuns p cs
    if p c then
      match cs.head? with
      | some c2 =>
        if p c2 then
          match rest with
          | w :: ws => (c :: w) :: ws
          | [] => [[c]]
        else [c] :: rest
      | none => [[c]]
    else rest

/-- `[w for w in re.findall(r"[a-zA-Z]+", text.lower()) if w in SENSATIONAL]`:
the sensational-vocabulary words of the text, in text order, with
multiplicity. -/
def sensationalWords (t : Text) : List Text :=
  (splitRuns isAsciiLetter (pyLower t)).filter (fun w => decide (w ∈ SENSATIONAL))

/-- The count feeding the penalty formula of `_text_red_flags`. -/
def sensationalHits (t : Text) : Nat := (sensationalWords t).length

/-- `sum(1 for c in text if c.isupper())`. -/
def upperCount (t : Text) : Nat := t.countP (fun c => c.isUpper)

/-- `text.count("!")`. -/
def exclamCount (t : Text) : Nat := t.count '!'

/-- `caps_ratio` in `_text_red_flags`: uppercase count over `max(1, len(text))`. -/
def capsRatio (t : Text) : ℚ := (upperCount t : ℚ) / ((max 1 t.length : Nat) : ℚ)

/-- `_text_red_flags` from `model.py`: the sensational-writing penalty. -/
def text_red_flags (t : Text) : ℚ :=
  min (6/10)
    ((if capsRatio t > 12/100 then (2:ℚ)/10 else 0) +
      (if 3 ≤ exclamCount t then (15:ℚ)/100 else 0) +
      min (25/100) ((sensationalHits t : ℚ) * (5/100)))

/-- Fuel-driven worker for `_split_sentences`: split at each maximal
whitespace run that directly follows one of `.`, `!`, `?`
(the regex `(?<=[.!?])\s+`). -/
def splitSentencesAux : Nat → List Char → List Char → List (List Char)
  | _, [], acc => [acc.reverse]
  | 0, t, acc => [acc.reverse ++ t]
  | fuel + 1, c :: cs, acc =>
    if (c == '.' || c == '!' || c == '?') &&
        (match cs.head? with | some d => d.isWhitespace | none => false) then
      (acc.reverse ++ [c]) :: splitSentencesAux fuel (cs.dropWhile Char.isWhitespace) []
    else splitSentencesAux fuel cs (c :: acc)

/-- `_split_sentences` from `model.py`:
`re.split(r'(?<=[.!?])\s+', text.strip())`. -/
def split_sentences (t : Text) : List Text :=
  splitSentencesAux (pyStrip t).length (pyStrip t) []

/-- Python `round()` on the exact-rational model: round half to even. -/
def pyRound (q : ℚ) : ℤ :=
  if q - ⌊q⌋ < 1/2 then ⌊q⌋
  else if 1/2 < q - ⌊q⌋ then ⌊q⌋ + 1
  else if ⌊q⌋ % 2 = 0 then ⌊q⌋ else ⌊q⌋ + 1

/-- Python `round(q, ndigits)` on the exact-rational model. -/
def roundTo (ndigits : Nat) (q : ℚ) : ℚ :=
  (pyRound (q * (10 ^ ndigits)) : ℚ) / (10 ^ ndigits)

/-- A provider entity: name, type, salience and the optional grounding
metadata keys (`wikipedia_url`, `mid`); `some` models key presence. -/
structure Entity where
  name : Text
  type_ : Text
  salience : ℚ
  wikipedia_url : Option Text
  mid : Option Text
deriving DecidableEq

/-- `("wikipedia_url" in md) or ("mid" in md)`. -/
def grounded (e : Entity) : Bool := e.wikipedia_url.isSome || e.mid.isSome

/-- `_entity_quality` from `model.py`. -/
def entity_quality (entities : List Entity) : ℚ :=
  min (3/10) ((((entities.take 25).countP grounded : Nat) : ℚ) * (3/100))

/-- The successful output of `_analyze`: document sentiment magnitude,
per-sentence (text, magnitude) pairs, entities and category names. -/
structure Analysis where
  sentiment_magnitude : ℚ
  sentences : List (Text × ℚ)
  entities : List Entity
  categories : List Text
deriving DecidableEq

/-- The `features` record of a classification result. -/
structure Features where
  sensational_penalty : ℚ
  sentiment_magnitude : ℚ
  entity_wiki_hits : Nat
  categories : List Text
deriving DecidableEq

/-- An entry of `insights.key_entities`. -/
structure KeyEntity where
  name : Text
  type_ : Text
  salience : ℚ
  wikipedia_url : Option Text
  mid : Option Text
deriving DecidableEq

/-- The `insights` record of a classification result. -/
structure Insights where
  key_entities : List KeyEntity
  sensational_terms : List Text
  notable_sentences : List Text
deriving DecidableEq

/-- The dictionary returned by `classify_text`. -/
structure Result where
  label : Text
  score : ℤ
  confidence : ℚ
  features : Features
  insights : Insights
deriving DecidableEq

/-- Boolean lexicographic comparison of texts by character code point
(Python string ordering, used to model `sorted` on strings). -/
def lexLe : List Char → List Char → Bool
  | [], _ => true
  | _ :: _, [] => false
  | a :: as, b :: bs => if a < b then true else if b < a then false else lexLe as bs

/-- First-seen-order deduplication by a key, with an accumulator of seen keys. -/
def dedupByAux {α β : Type} [DecidableEq β] (key : α → β) : List α → List β → List α
  | [], _ => []
  | x :: xs, seen =>
    if key x ∈ seen then dedupByAux key xs seen
    else x :: dedupByAux key xs (key x :: seen)

/-- First-seen-order deduplication by a key. -/
def dedupBy {α β : Type} [DecidableEq β] (key : α → β) (l : List α) : List α :=
  dedupByAux key l []

/-- The record stored for one entity in `insights.key_entities`. -/
def toKeyEntity (e : Entity) : KeyEntity :=
  { name := e.name, type_ := e.type_, salience := e.salience,
    wikipedia_url := e.wikipedia_url, mid := e.mid }

/-- The shoutiness bonus of `_collect_insights`. -/
def sentenceBonus (s : Text) : ℚ :=
  (if 1 ≤ exclamCount s then 8/10 else 0) + (if capsRatio s > 12/100 then 8/10 else 0)

/-- `_collect_insights` from `model.py`. -/
def collect_insights (t : Text) (sentences : List (Text × ℚ)) (entities : List Entity) :
    Insights :=
  let key_entities :=
    ((List.insertionSort (fun a b : Entity => b.salience ≤ a.salience) entities).take 8).map
      toKeyEntity
  let sensational_terms :=
    (List.insertionSort (fun a b : Text => lexLe a b = true)
      (dedupBy id (sensationalWords t))).take 10
  let candidates :=
    if sentences ≠ [] then sentences.map (fun p => (p.2 + sentenceBonus p.1, pyStrip p.1))
    else ((split_sentences t).take 8).map (fun s => (sentenceBonus s, pyStrip s))
  let notable_sentences :=
    ((List.insertionSort (fun a b : ℚ × Text => b.1 ≤ a.1) candidates).take 3).filterMap
      (fun p => if p.2 ≠ [] then some p.2 else none)
  { key_entities := key_entities, sensational_terms := sensational_terms,
    notable_sentences := notable_sentences }

/-- The fallback branch of `classify_text` (analysis provider unavailable). -/
def classify_text_fallback (t : Text) : Result :=
  { label := txt "uncertain"
    score := 50
    confidence := 3/10
    features :=
      { sensational_penalty := text_red_flags t
        sentiment_magnitude := 0
        entity_wiki_hits := 0
        categories := [] }
    insights :=
      { key_entities := []
        sensational_terms := (sensationalWords t).take 10
        notable_sentences := (split_sentences t).take 2 } }

/-- Substring containment (the Python `in` operator on strings). -/
def containsSub (needle hay : Text) : Bool :=
  (List.range (hay.length + 1)).any (fun k => needle.isPrefixOf (hay.drop k))

/-- The category names whose presence grants the +5 bonus. -/
def NEWSY : List Text := [txt "news", txt "law & government", txt "business"]

/-- `any(("news" in c) or ("law & government" in c) or ("business" in c)
for c in catnames)` with `catnames = [c.name.lower() for c in categories]`. -/
def categoryBonusApplies (categories : List Text) : Bool :=
  categories.any (fun c => NEWSY.any (fun w => containsSub w (pyLower c)))

/-- The label thresholds of `classify_text`. -/
def labelOf (score : ℤ) : Text :=
  if 70 ≤ score then txt "true" else if score ≤ 30 then txt "fake" else txt "uncertain"

/-- The float score accumulated by `classify_text` before round-and-clamp:
50, the category bonus branch, the entity-quality term, the sentiment
subtraction and the penalty subtraction. -/
def rawScore (t : Text) (a : Analysis) : ℚ :=
  (if a.categories ≠ [] ∧ categoryBonusApplies a.categories then (50:ℚ) + 5 else 50)
    + entity_quality a.entities * 100
    - min 20 (a.sentiment_magnitude * 3)
    - text_red_flags t * 100

/-- The successful branch of `classify_text` (`model.py`). -/
def classify_text_ok (t : Text) (a : Analysis) : Result :=
  let score : ℤ := max 0 (min 100 (pyRound (rawScore t a)))
  { label := labelOf score
    score := score
    confidence := roundTo 2 (|(score : ℚ) - 50| / 50)
    features :=
      { sensational_penalty := roundTo 3 (text_red_flags t)
        sentiment_magnitude := a.sentiment_magnitude
        entity_wiki_hits := min 25 ((a.entities.take 25).countP grounded)
        categories := a.categories.take 5 }
    insights := collect_insights t a.sentences a.entities }

/-- `classify_text` from `model.py`; `none` models the case where the
provider client could not be created or the analysis call failed. -/
def classify_text (t : Text) (a : Option Analysis) : Result :=
  match a with
  | none => classify_text_fallback t
  | some an => classify_text_ok t an

/-- The skip/dedup/append/break loop pattern of `verify` (`main.py`, Step 2):
skip unwanted items, deduplicate by a key, emit `out x`, and break as soon
as `cap` items have been collected. -/
def dedupCapAux {α β γ : Type} [DecidableEq β] (key : α → β) (out : α → γ)
    (skip : α → Bool) (cap : Nat) : List α → List β → List γ → List γ
  | [], _, acc => acc.reverse
  | x :: xs, seen, acc =>
    if skip x then dedupCapAux key out skip cap xs seen acc
    else if key x ∈ seen then dedupCapAux key out skip cap xs seen acc
    else if cap ≤ acc.length + 1 then (out x :: acc).reverse
    else dedupCapAux key out skip cap xs (key x :: seen) (out x :: acc)

/-- Entry point of the loop pattern, with empty seen-set and accumulator. -/
def dedupCap {α β γ : Type} [DecidableEq β] (key : α → β) (out : α → γ)
    (skip : α → Bool) (cap : Nat) (l : List α) : List γ :=
  dedupCapAux key out skip cap l [] []

/-- `c.split("/")[-1] if "/" in c else c`. -/
def shortenCat (c : Text) : Text :=
  if c.contains '/' then (c.reverse.takeWhile (fun ch => ch != '/')).reverse else c

/-- Decimal digits of a natural number. -/
def natDigits (n : Nat) : Text := Nat.toDigits 10 n

/-- Python fixed-point formatting `f"{q:.Nf}"` on the exact-rational model. -/
def formatFixed (ndigits : Nat) (q : ℚ) : Text :=
  (if pyRound (q * (10 ^ ndigits)) < 0 then txt "-" else []) ++
    natDigits ((pyRound (q * (10 ^ ndigits))).natAbs / 10 ^ ndigits) ++ txt "." ++
    List.replicate
      (ndigits - (natDigits ((pyRound (q * (10 ^ ndigits))).natAbs % 10 ^ ndigits)).length)
      '0' ++
    natDigits ((pyRound (q * (10 ^ ndigits))).natAbs % 10 ^ ndigits)

/-- Python truthiness of an optional string. -/
def pyTruthy : Option Text → Bool
  | none => false
  | some s => !s.isEmpty

/-- The display name of a key entity in the explanation (`nm` plus the
`" (wiki)"` marker when a truthy `wikipedia_url` is present). -/
def entityDisplayName (e : KeyEntity) : Text :=
  if pyTruthy e.wikipedia_url then e.name ++ txt " (wiki)" else e.name

/-- The generic fallback explanation line of `verify`. -/
def genericLine : Text :=
  txt "Computed from entity grounding, sentiment magnitude, and sensational-text heuristics."

/-- The explanation-building part of `verify` (`main.py`, Step 2), modelled
with the loop pattern `dedupCap` for the four in-loop list builders. -/
def composeExplanation (f : Features) (i : Insights) : List Text :=
  let pen := f.sensational_penalty
  let mag := f.sentiment_magnitude
  let wiki_hits := f.entity_wiki_hits
  let cats := dedupCap (fun c => pyLower (shortenCat c)) shortenCat
    (fun c => c.isEmpty) 3 f.categories
  let terms := (dedupBy id i.sensational_terms).take 6
  let names := dedupCap (fun e => pyLower (pyStrip e.name)) entityDisplayName
    (fun e => e.name.isEmpty) 4 i.key_entities
  let notables := dedupCap pyLower id (fun s => s.isEmpty) 2 (i.notable_sentences.map pyStrip)
  let l1 := if pen > 0 then
    [txt "Sensational writing patterns detected (penalty " ++ formatFixed 2 pen ++ txt ")"]
    else []
  let l2 := if mag ≥ 1 then
    [txt "High emotional tone (sentiment magnitude ≈ " ++ formatFixed 2 mag ++ txt ")"]
    else []
  let l3 := if 0 < wiki_hits then
    [txt "Grounded entities found: " ++ natDigits wiki_hits ++
      txt " linked to Wikipedia/Knowledge Graph"]
    else []
  let l4 := if cats ≠ [] then
    [txt "Topical category hints: " ++ List.intercalate (txt ", ") cats] else []
  let l5 := if names ≠ [] then
    [txt "Key entities: " ++ List.intercalate (txt ", ") names] else []
  let l6 := if terms ≠ [] then
    [txt "Sensational terms in text: " ++ List.intercalate (txt ", ") terms] else []
  let l7 := notables.map (fun s =>
    txt "Notable line: \"" ++ (s.take 160 ++ (if 160 < s.length then txt "…" else [])) ++
      txt "\"")
  let e := l1 ++ l2 ++ l3 ++ l4 ++ l5 ++ l6 ++ l7
  if e = [] then [genericLine] else e

/-- §4.5 of the spec, stated as filter/dedup/map/take pipelines instead of
imperative loops. -/
def specComposeExplanation (f : Features) (i : Insights) : List Text :=
  let pen := f.sensational_penalty
  let mag := f.sentiment_magnitude
  let wiki_hits := f.entity_wiki_hits
  let cats :=
    (dedupBy pyLower ((f.categories.filter (fun c => !c.isEmpty)).map shortenCat)).take 3
  let terms := (dedupBy id i.sensational_terms).take 6
  let names :=
    ((dedupBy (fun e => pyLower (pyStrip e.name))
      (i.key_entities.filter (fun e => !e.name.isEmpty))).map entityDisplayName).take 4
  let notables :=
    (dedupBy pyLower ((i.notable_sentences.map pyStrip).filter (fun s => !s.isEmpty))).take 2
  let l1 := if pen > 0 then
    [txt "Sensational writing patterns detected (penalty " ++ formatFixed 2 pen ++ txt ")"]
    else []
  let l2 := if mag ≥ 1 then
    [txt "High emotional tone (sentiment magnitude ≈ " ++ formatFixed 2 mag ++ txt ")"]
    else []
  let l3 := if 0 < wiki_hits then
    [txt "Grounded entities found: " ++ natDigits wiki_hits ++
      txt " linked to Wikipedia/Knowledge Graph"]
    else []
  let l4 := if cats ≠ [] then
    [txt "Topical category hints: " ++ List.intercalate (txt ", ") cats] else []
  let l5 := if names ≠ [] then
    [txt "Key entities: " ++ List.intercalate (txt ", ") names] else []
  let l6 := if terms ≠ [] then
    [txt "Sensational terms in text: " ++ List.intercalate (txt ", ") terms] else []
  let l7 := notables.map (fun s =>
    txt "Notable line: \"" ++ (s.take 160 ++ (if 160 < s.length then txt "…" else [])) ++
      txt "\"")
  let e := l1 ++ l2 ++ l3 ++ l4 ++ l5 ++ l6 ++ l7
  if e = [] then [genericLine] else e

/-- Steps 4 of `verify` (`main.py`): merge the fact-check verdict and append
up to three claim-review summary lines. -/
def mergeVerdict (r : Result) (expl : List Text) (verdict : Option Text)
    (summary : List Text) : Result × List Text :=
  let rp :=
    match verdict with
    | some v =>
      if v = txt "true" ∨ v = txt "fake" then
        ({ r with
            label := v
            score := if v = txt "true" then (85 : ℤ) else 15
            confidence := 9/10 },
          (txt "Fact Check verdict: " ++ v) :: expl)
      else (r, expl)
    | none => (r, expl)
  let expl2 := if summary ≠ [] then rp.2 ++ summary.take 3 else rp.2
  (rp.1, if expl2 = [] then [genericLine] else expl2)

/-- A fact-check claim review (`factcheck.py`); `publisher` is the resolved
publisher name (`r.get("publisher", {}).get("name", "Unknown")`). -/
structure Review where
  publisher : Text
  title : Text
  textRating : Option Text
  url : Text
deriving DecidableEq

/-- A fact-check claim with its reviews. -/
structure Claim where
  claimReview : List Review
deriving DecidableEq

/-- `(r.get("textRating") or "").lower()`. -/
def ratingOf (r : Review) : Text := pyLower (r.textRating.getD [])

/-- The `f"{publisher}: {rating} — {title} ({url})"` summary line. -/
def reviewLine (r : Review) : Text :=
  r.publisher ++ txt ": " ++ ratingOf r ++ txt " — " ++ r.title ++ txt " (" ++
    r.url ++ txt ")"

/-- Ratings containing one of these mark the claim as fake. -/
def FAKE_MARKERS : List Text :=
  [txt "false", txt "fake", txt "pants on fire", txt "incorrect", txt "misleading"]

/-- Ratings containing one of these mark the claim as true. -/
def TRUE_MARKERS : List Text :=
  [txt "true", txt "correct", txt "mostly true", txt "accurate"]

/-- One inner-loop iteration of `summarize_claims` (`factcheck.py`). -/
def reviewStep (acc : Option Text × List Text) (r : Review) : Option Text × List Text :=
  let rating := ratingOf r
  let summary := acc.2 ++ [reviewLine r]
  let verdict :=
    if FAKE_MARKERS.any (fun w => containsSub w rating) then some (txt "fake") else acc.1
  let verdict :=
    if TRUE_MARKERS.any (fun w => containsSub w rating) then some (verdict.getD (txt "true"))
    else verdict
  (verdict, summary)

/-- `summarize_claims` from `factcheck.py`. -/
def summarize_claims (claims : List Claim) : Option Text × List Text :=
  if claims = [] then (none, [])
  else
    (some (((claims.take 5).foldl (fun acc c => c.claimReview.foldl reviewStep acc)
        (none, [])).1.getD (txt "uncertain")),
      ((claims.take 5).foldl (fun acc c => c.claimReview.foldl reviewStep acc)
        (none, [])).2)

/-- The verdict-update rule as worded in the spec: an else-if chain where
"fake" always overrides and "true" only fills an empty verdict. -/
def specVerdictStep (v : Option Text) (rating : Text) : Option Text :=
  if FAKE_MARKERS.any (fun w => containsSub w rating) then some (txt "fake")
  else if TRUE_MARKERS.any (fun w => containsSub w rating) then
    (if v = none then some (txt "true") else v)
  else v

/-- The spec-worded verdict: scan the first 5 claims in order, all reviews
per claim, applying `specVerdictStep`; default "uncertain". -/
def specVerdict (claims : List Claim) : Text :=
  ((claims.take 5).foldl
    (fun v c => c.claimReview.foldl (fun v r => specVerdictStep v (ratingOf r)) v)
    none).getD (txt "uncertain")

/-- The text actually classified by `verify` (`main.py`):
`title + ". " + text` with `title = text[:120]` after stripping the input. -/
def verifyClassifiedText (input : Text) : Text :=
  let t := pyStrip input
  (t.take 120) ++ txt ". " ++ t

/-- The `/verify` result and explanation when both external providers are
unavailable (analysis client missing, fact-check search failing). -/
def verifyNoProvider (input : Text) : Result × List Text :=
  let r := classify_text (verifyClassifiedText input) none
  mergeVerdict r (composeExplanation r.features r.insights) none []

/-- Mutual consistency of a result's label and score under the fixed
thresholds, as stated in the spec invariant. -/
def labelConsistent (r : Result) : Prop :=
  (r.label = txt "true" ↔ 70 ≤ r.score) ∧ (r.label = txt "fake" ↔ r.score ≤ 30) ∧
    (r.label = txt "uncertain" ↔ (30 < r.score ∧ r.score < 70))

/-- The §4.4 scorer as worded in the spec: start at 50, add the category
bonus, add 100 times the capped entity-quality bonus, subtract the capped
sentiment term and the scaled penalty, clamp to [0, 100], round. -/
def specScore (categories : List Text) (entities : List Entity) (mag penalty : ℚ) : ℤ :=
  pyRound (max 0 (min 100
    (50 + (if categoryBonusApplies categories then (5:ℚ) else 0)
        + 100 * min (3/10) ((((entities.take 25).countP grounded : Nat) : ℚ) * (3/100))
        - min 20 (mag * 3)
        - penalty * 100)))

/-! ## Rounding lemmas -/

theorem pyRound_intCast (n : ℤ) : pyRound (n : ℚ) = n := by
  unfold pyRound
  rw [Int.floor_intCast]
  norm_num

theorem floor_le_pyRound (q : ℚ) : ⌊q⌋ ≤ pyRound q := by
  unfold pyRound
  split_ifs <;> omega

theorem pyRound_le_floor_succ (q : ℚ) : pyRound q ≤ ⌊q⌋ + 1 := by
  unfold pyRound
  split_ifs <;> omega

theorem pyRound_mono {a b : ℚ} (h : a ≤ b) : pyRound a ≤ pyRound b := by
  have hf : ⌊a⌋ ≤ ⌊b⌋ := Int.floor_le_floor h
  rcases lt_or_eq_of_le hf with hlt | heq
  · calc pyRound a ≤ ⌊a⌋ + 1 := pyRound_le_floor_succ a
      _ ≤ ⌊b⌋ := by omega
      _ ≤ pyRound b := floor_le_pyRound b
  · unfold pyRound
    rw [← heq]
    have hab : a - ⌊a⌋ ≤ b - ⌊a⌋ := by linarith
    split_ifs <;> first | omega | linarith

/-- Clamping in `ℚ` then rounding agrees with rounding then clamping in `ℤ`
(the two bounds are integers fixed by rounding). -/
theorem pyRound_clamp (s : ℚ) :
    pyRound (max 0 (min 100 s)) = max 0 (min 100 (pyRound s)) := by
  have h0 : pyRound 0 = 0 := by
    have := pyRound_intCast 0
    norm_num at this
    exact this
  have h100 : pyRound 100 = 100 := by
    have := pyRound_intCast 100
    norm_num at this
    exact this
  rcases le_total s 0 with h | h
  · rw [min_eq_right (by linarith : s ≤ (100:ℚ)), max_eq_left h, h0]
    have hle : pyRound s ≤ 0 := by
      have := pyRound_mono h
      rw [h0] at this
      exact this
    rw [min_eq_right (by omega : pyRound s ≤ (100:ℤ)), max_eq_left hle]
  · rcases le_total s 100 with h2 | h2
    · rw [min_eq_right h2, max_eq_right h]
      have hge : 0 ≤ pyRound s := by
        have := pyRound_mono h
        rw [h0] at this
        exact this
      have hle : pyRound s ≤ 100 := by
        have := pyRound_mono h2
        rw [h100] at this
        exact this
      rw [min_eq_right hle, max_eq_right hge]
    · rw [min_eq_left h2, max_eq_right (by norm_num : (0:ℚ) ≤ 100), h100]
      have hge : 100 ≤ pyRound s := by
        have := pyRound_mono h2
        rw [h100] at this
        exact this
      rw [min_eq_left hge, max_eq_right (by omega : (0:ℤ) ≤ 100)]

/-! ## Sample values used by witness theorems -/

/-- A sample features record. -/
def fW : Features :=
  { sensational_penalty := 0, sentiment_magnitude := 0, entity_wiki_hits := 0,
    categories := [] }

/-- A sample insights record. -/
def iW : Insights :=
  { key_entities := [], sensational_terms := [], notable_sentences := [] }

/-- A sample heuristic result (score 60, label "uncertain"). -/
def rW : Result :=
  { label := txt "uncertain", score := 60, confidence := 1/5, features := fW, insights := iW }

/-! ## Claim theorems -/

/-- Claim C1: for every features input, the score computed by
`classify_text` equals the §4.4 spec formula: start at 50.0, +5 on a news/
law-and-government/business category, plus 100 times the entity-quality
bonus (0.03 per grounded entity among the first 25, capped at 0.3), minus
`min(20, magnitude*3)`, minus `penalty*100`, clamped to [0,100] and rounded
to the nearest integer. -/
theorem claim_C1_scorer (t : Text) (a : Analysis) :
    (classify_text_ok t a).score =
      specScore a.categories a.entities a.sentiment_magnitude (text_red_flags t) := by
  have hs : (classify_text_ok t a).score = max 0 (min 100 (pyRound (rawScore t a))) := rfl
  rw [hs]
  unfold specScore
  rw [pyRound_clamp]
  have : rawScore t a =
      50 + (if categoryBonusApplies a.categories then (5:ℚ) else 0)
        + 100 * min (3/10) ((((a.entities.take 25).countP grounded : Nat) : ℚ) * (3/100))
        - min 20 (a.sentiment_magnitude * 3)
        - text_red_flags t * 100 := by
    unfold rawScore entity_quality
    by_cases hb : categoryBonusApplies a.categories = true
    · have hne : a.categories ≠ [] := by
        intro hnil
        rw [hnil] at hb
        exact absurd hb (by decide)
      rw [if_pos (show a.categories ≠ [] ∧ categoryBonusApplies a.categories = true from
        ⟨hne, hb⟩), if_pos hb]
      ring
    · rw [if_neg (show ¬(a.categories ≠ [] ∧ categoryBonusApplies a.categories = true) from
        fun hc => hb hc.2), if_neg hb]
      ring
  rw [this]

/-- Claim C2: when the analysis provider is unavailable, `classify_text`
returns exactly label "uncertain", score 50, confidence 0.3, the degraded
feature set (penalty from the §4.1 signal extractor, zero magnitude, zero
wiki hits, no categories), and insights limited to the sensational-term
list plus up to 2 naively split sentences. -/
theorem claim_C2_fallback (t : Text) :
    classify_text t none =
      { label := txt "uncertain", score := 50, confidence := 3/10,
        features :=
          { sensational_penalty := text_red_flags t, sentiment_magnitude := 0,
            entity_wiki_hits := 0, categories := [] },
        insights :=
          { key_entities := [],
            sensational_terms := (sensationalWords t).take 10,
            notable_sentences := (split_sentences t).take 2 } }
    ∧ (classify_text t none).insights.sensational_terms.length ≤ 10
    ∧ (classify_text t none).insights.notable_sentences.length ≤ 2 := by
  refine ⟨rfl, ?_, ?_⟩
  · show ((sensationalWords t).take 10).length ≤ 10
    exact List.length_take_le 10 _
  · show ((split_sentences t).take 2).length ≤ 2
    exact List.length_take_le 2 _

/-- Claim C3: a "true"/"fake" fact-check verdict overwrites label, score
(85 / 15) and confidence (0.9) and inserts "Fact Check verdict: {verdict}"
at position 0; in all cases up to 3 claim-review summary lines are appended
at the end of the explanation. -/
theorem claim_C3_verdict_merge (r : Result) (e : List Text) (v : Text) (s : List Text)
    (h : v = txt "true" ∨ v = txt "fake") :
    mergeVerdict r e (some v) s =
      ({ r with
          label := v
          score := (if v = txt "true" then 85 else 15)
          confidence := 9/10 },
        ((txt "Fact Check verdict: " ++ v) :: e) ++ s.take 3)
    ∧ ∀ v' : Option Text, ∃ pre, (mergeVerdict r e v' s).2 = pre ++ s.take 3 := by
  constructor
  · simp only [mergeVerdict]
    rw [if_pos h]
    by_cases hs : s = []
    · subst hs
      simp
    · have hne : (txt "Fact Check verdict: " ++ v) :: e ++ s.take 3 ≠ [] := by simp
      simp [hs, hne]
  · intro v'
    by_cases hs : s = []
    · subst hs
      exact ⟨(mergeVerdict r e v' []).2, by simp⟩
    · have htake : s.take 3 ≠ [] := by
        cases s with
        | nil => exact absurd rfl hs
        | cons a l => simp
      cases v' with
      | none =>
        refine ⟨e, ?_⟩
        simp [mergeVerdict, hs, htake]
      | some v'' =>
        by_cases hv : v'' = txt "true" ∨ v'' = txt "fake"
        · refine ⟨(txt "Fact Check verdict: " ++ v'') :: e, ?_⟩
          simp [mergeVerdict, hv, hs, htake]
        · refine ⟨e, ?_⟩
          simp [mergeVerdict, hv, hs, htake]

/-- Witness for claim C3 at a concrete result, verdict "fake" and a
one-line summary. -/
theorem claim_C3_verdict_merge_witness :
    mergeVerdict rW [] (some (txt "fake")) [txt "s1"] =
      ({ rW with
          label := txt "fake"
          score := (if txt "fake" = txt "true" then 85 else 15)
          confidence := 9/10 },
        ((txt "Fact Check verdict: " ++ txt "fake") :: []) ++ [txt "s1"].take 3)
    ∧ ∀ v' : Option Text, ∃ pre, (mergeVerdict rW [] v' [txt "s1"]).2 = pre ++ [txt "s1"].take 3 :=
  claim_C3_verdict_merge rW [] (txt "fake") [txt "s1"] (Or.inr rfl)

/-- Claim C5: the signal-extractor penalty is exactly the §4.1 formula and
always lies in [0, 0.6], for every text (including empty and
non-alphabetic text); the extractor is a total function. -/
theorem claim_C5_signal_extractor (t : Text) :
    text_red_flags t =
      min (6/10)
        ((if capsRatio t > 12/100 then (2:ℚ)/10 else 0) +
          (if 3 ≤ exclamCount t then (15:ℚ)/100 else 0) +
          min (25/100) ((sensationalHits t : ℚ) * (5/100)))
    ∧ 0 ≤ text_red_flags t ∧ text_red_flags t ≤ 6/10 := by
  refine ⟨rfl, ?_, min_le_left _ _⟩
  unfold text_red_flags
  refine le_min (by norm_num) ?_
  have h1 : (0:ℚ) ≤ (if capsRatio t > 12/100 then (2:ℚ)/10 else 0) := by
    split <;> norm_num
  have h2 : (0:ℚ) ≤ (if 3 ≤ exclamCount t then (15:ℚ)/100 else 0) := by
    split <;> norm_num
  have h3 : (0:ℚ) ≤ min (25/100) ((sensationalHits t : ℚ) * (5/100)) := by
    refine le_min (by norm_num) ?_
    positivity
  linarith

/-- Claim C10: the verdict merger changes only label, score, confidence and
the explanation list; the features and insights records of the result are
returned unchanged. -/
theorem claim_C10_merge_frame (r : Result) (e : List Text) (v : Option Text)
    (s : List Text) :
    (mergeVerdict r e v s).1.features = r.features
    ∧ (mergeVerdict r e v s).1.insights = r.insights := by
  cases v with
  | none => exact ⟨rfl, rfl⟩
  | some v =>
    simp only [mergeVerdict]
    by_cases hv : v = txt "true" ∨ v = txt "fake"
    · rw [if_pos hv]
      exact ⟨rfl, rfl⟩
    · rw [if_neg hv]
      exact ⟨rfl, rfl⟩

/-- The label thresholds determine and are determined by the score. -/
theorem labelOf_consistent (s : ℤ) :
    (labelOf s = txt "true" ↔ 70 ≤ s) ∧ (labelOf s = txt "fake" ↔ s ≤ 30) ∧
      (labelOf s = txt "uncertain" ↔ (30 < s ∧ s < 70)) := by
  unfold labelOf
  by_cases h1 : 70 ≤ s
  · rw [if_pos h1]
    refine ⟨⟨fun _ => h1, fun _ => rfl⟩, ?_, ?_⟩
    · exact ⟨fun hx => absurd hx (by decide), fun hx => (by omega : False).elim⟩
    · exact ⟨fun hx => absurd hx (by decide), fun hx => (by omega : False).elim⟩
  · by_cases h2 : s ≤ 30
    · rw [if_neg h1, if_pos h2]
      refine ⟨?_, ⟨fun _ => h2, fun _ => rfl⟩, ?_⟩
      · exact ⟨fun hx => absurd hx (by decide), fun hx => (by omega : False).elim⟩
      · exact ⟨fun hx => absurd hx (by decide), fun hx => (by omega : False).elim⟩
    · rw [if_neg h1, if_neg h2]
      refine ⟨?_, ?_, ⟨fun _ => by omega, fun _ => rfl⟩⟩
      · exact ⟨fun hx => absurd hx (by decide), fun hx => (by omega : False).elim⟩
      · exact ⟨fun hx => absurd hx (by decide), fun hx => (by omega : False).elim⟩

/-- Counterexample to claim C4: on the fallback path (empty text, provider
unavailable) the result has score 50 but confidence 0.3, while the claimed
formula `round(|score-50|/50, 2)` yields 0. -/
theorem claim_C4_counterexample :
    ¬((classify_text [] none).confidence =
      roundTo 2 (|((classify_text [] none).score : ℚ) - 50| / 50)) := by
  have h1 : (classify_text [] none).confidence = 3/10 := rfl
  have h2 : (classify_text [] none).score = 50 := rfl
  rw [h1, h2]
  have h3 : |((50:ℤ) : ℚ) - 50| / 50 = 0 := by norm_num
  rw [h3]
  have h4 : roundTo 2 0 = 0 := by
    unfold roundTo pyRound
    norm_num
  rw [h4]
  norm_num

/-- Reduce a label-consistency goal to its label/score components. -/
theorem labelConsistent_of_components (r : Result) (lbl : Text) (sc : ℤ)
    (hl : r.label = lbl) (hs : r.score = sc)
    (h : (lbl = txt "true" ↔ 70 ≤ sc) ∧ (lbl = txt "fake" ↔ sc ≤ 30) ∧
      (lbl = txt "uncertain" ↔ (30 < sc ∧ sc < 70))) :
    labelConsistent r := by
  unfold labelConsistent
  rw [hl, hs]
  exact h

/-- The overriding branch of the merger: the returned result record. -/
theorem mergeVerdict_override (r : Result) (e s : List Text) (v : Text)
    (h : v = txt "true" ∨ v = txt "fake") :
    (mergeVerdict r e (some v) s).1 =
      { r with
          label := v
          score := (if v = txt "true" then 85 else 15)
          confidence := 9/10 } := by
  simp only [mergeVerdict]
  rw [if_pos h]

/-- The non-overriding branches of the merger keep the result unchanged. -/
theorem mergeVerdict_no_override (r : Result) (e s : List Text) (v : Text)
    (h : ¬(v = txt "true" ∨ v = txt "fake")) :
    (mergeVerdict r e (some v) s).1 = r := by
  simp only [mergeVerdict]
  rw [if_neg h]

/-- Claim C4, amended: label and score are mutually consistent under the
fixed thresholds for every engine result (heuristic, fallback, merged), and
`confidence = round(|score−50|/50, 2)` holds on the heuristic path; however
the fallback path fixes confidence at 0.3 (score 50) and a verdict override
fixes it at 0.9 (score 85 or 15). -/
theorem claim_C4_amended :
    (∀ (t : Text) (a : Option Analysis), labelConsistent (classify_text t a))
    ∧ (∀ (t : Text) (a : Analysis),
        (classify_text t (some a)).confidence =
          roundTo 2 (|((classify_text t (some a)).score : ℚ) - 50| / 50))
    ∧ (∀ t : Text,
        (classify_text t none).score = 50 ∧ (classify_text t none).confidence = 3/10)
    ∧ (∀ (r : Result) (e : List Text) (v : Option Text) (s : List Text),
        labelConsistent r → labelConsistent (mergeVerdict r e v s).1)
    ∧ (∀ (r : Result) (e : List Text) (v : Text) (s : List Text),
        v = txt "true" ∨ v = txt "fake" →
          (mergeVerdict r e (some v) s).1.confidence = 9/10) := by
  refine ⟨?_, ?_, ?_, ?_, ?_⟩
  · intro t a
    cases a with
    | none =>
      refine ⟨?_, ?_, ?_⟩
      · show txt "uncertain" = txt "true" ↔ 70 ≤ (50:ℤ)
        exact ⟨fun hx => absurd hx (by decide), fun hx => (by omega : False).elim⟩
      · show txt "uncertain" = txt "fake" ↔ (50:ℤ) ≤ 30
        exact ⟨fun hx => absurd hx (by decide), fun hx => (by omega : False).elim⟩
      · show txt "uncertain" = txt "uncertain" ↔ (30 < (50:ℤ) ∧ (50:ℤ) < 70)
        exact ⟨fun _ => by omega, fun _ => rfl⟩
    | some a => exact labelOf_consistent (max 0 (min 100 (pyRound (rawScore t a))))
  · intro t a
    rfl
  · intro t
    exact ⟨rfl, rfl⟩
  · intro r e v s h
    cases v with
    | none =>
      have hf : (mergeVerdict r e none s).1 = r := rfl
      rw [hf]
      exact h
    | some v =>
      by_cases hv : v = txt "true" ∨ v = txt "fake"
      · have h1 := mergeVerdict_override r e s v hv
        rcases hv with hv | hv <;> subst hv
        · refine labelConsistent_of_components _ (txt "true") 85 ?_ ?_ (by decide)
          · rw [h1]
          · rw [h1, if_pos (show txt "true" = txt "true" from rfl)]
        · refine labelConsistent_of_components _ (txt "fake") 15 ?_ ?_ (by decide)
          · rw [h1]
          · rw [h1, if_neg (show ¬(txt "fake" = txt "true") by decide)]
      · rw [mergeVerdict_no_override r e s v hv]
        exact h
  · intro r e v s hv
    rw [mergeVerdict_override r e s v hv]

/-- Witness for claim C4 at concrete inputs: the result `rW` (score 60,
label "uncertain") is label-consistent, and so is its merge with no
verdict. -/
theorem claim_C4_amended_witness :
    labelConsistent (mergeVerdict rW [] none []).1 :=
  claim_C4_amended.2.2.2.1 rW [] none [] (by unfold labelConsistent rW; decide)

/-- The verdict component of one code loop step agrees with the spec-worded
else-if rule. -/
theorem reviewStep_fst (acc : Option Text × List Text) (r : Review) :
    (reviewStep acc r).1 = specVerdictStep acc.1 (ratingOf r) := by
  unfold reviewStep specVerdictStep
  by_cases hf : FAKE_MARKERS.any (fun w => containsSub w (ratingOf r)) = true
  · by_cases ht : TRUE_MARKERS.any (fun w => containsSub w (ratingOf r)) = true
    · simp [hf, ht]
    · simp [hf, ht]
  · by_cases ht : TRUE_MARKERS.any (fun w => containsSub w (ratingOf r)) = true
    · cases hacc : acc.1 <;> simp [hf, ht, hacc]
    · simp [hf, ht]

/-- Folding the code step over a review list tracks the spec-worded fold on
the verdict component. -/
theorem foldl_reviewStep_fst (rs : List Review) :
    ∀ acc : Option Text × List Text,
      (rs.foldl reviewStep acc).1 =
        rs.foldl (fun v r => specVerdictStep v (ratingOf r)) acc.1 := by
  induction rs with
  | nil => intro acc; rfl
  | cons r rs ih =>
    intro acc
    show ((rs.foldl reviewStep (reviewStep acc r))).1 = _
    rw [ih (reviewStep acc r), reviewStep_fst]
    rfl

/-- Folding the nested claim/review loops tracks the spec-worded fold on
the verdict component. -/
theorem foldl_claims_fst (cs : List Claim) :
    ∀ acc : Option Text × List Text,
      ((cs.foldl (fun a c => c.claimReview.foldl reviewStep a) acc).1) =
        cs.foldl (fun v c => c.claimReview.foldl (fun v r => specVerdictStep v (ratingOf r)) v)
          acc.1 := by
  induction cs with
  | nil => intro acc; rfl
  | cons c cs ih =>
    intro acc
    show ((cs.foldl _ (c.claimReview.foldl reviewStep acc)).1) = _
    rw [ih (c.claimReview.foldl reviewStep acc), foldl_reviewStep_fst]
    rfl

/-- Claim C6: the claim-summary verdict scans the first 5 claims in input
order and every review of each, applying the marker rules ("fake" always
overrides, "true" only fills an empty verdict, default "uncertain"); an
empty claims list yields no verdict and an empty summary. -/
theorem claim_C6_claim_summary (claims : List Claim) :
    (claims = [] → summarize_claims claims = (none, []))
    ∧ (claims ≠ [] → (summarize_claims claims).1 = some (specVerdict claims)) := by
  constructor
  · intro h
    subst h
    rfl
  · intro h
    unfold summarize_claims specVerdict
    rw [if_neg h]
    rw [foldl_claims_fst]

/-- Witness for claim C6: the empty list and a one-claim list with no
reviews (verdict "uncertain"). -/
theorem claim_C6_claim_summary_witness :
    summarize_claims ([] : List Claim) = (none, [])
    ∧ (summarize_claims [{ claimReview := [] }]).1 =
        some (specVerdict [{ claimReview := [] }]) :=
  ⟨(claim_C6_claim_summary []).1 rfl,
    (claim_C6_claim_summary [{ claimReview := [] }]).2 (by decide)⟩

/-- Totality of the lexicographic comparison. -/
theorem lexLe_total : ∀ a b : List Char, lexLe a b = true ∨ lexLe b a = true := by
  intro a
  induction a with
  | nil => intro b; left; rfl
  | cons c as ih =>
    intro b
    cases b with
    | nil => right; rfl
    | cons d bs =>
      by_cases h1 : c < d
      · left
        simp [lexLe, h1]
      · by_cases h2 : d < c
        · right
          simp [lexLe, h2]
        · rcases ih bs with h | h
          · left
            simp [lexLe, h1, h2, h]
          · right
            simp [lexLe, h1, h2, h]

/-- Transitivity of the lexicographic comparison. -/
theorem lexLe_trans :
    ∀ a b c : List Char, lexLe a b = true → lexLe b c = true → lexLe a c = true := by
  intro a
  induction a with
  | nil => intro b c _ _; rfl
  | cons x as ih =>
    intro b c hab hbc
    cases b with
    | nil => simp [lexLe] at hab
    | cons y bs =>
      cases c with
      | nil => simp [lexLe] at hbc
      | cons z cs =>
        simp only [lexLe] at hab hbc ⊢
        by_cases h1 : x < y
        · by_cases h2 : y < z
          · simp [lt_trans h1 h2]
          · by_cases h3 : z < y
            · simp [h2, h3] at hbc
            · have hyz : y = z := le_antisymm (not_lt.mp h3) (not_lt.mp h2)
              subst hyz
              simp [h1]
        · by_cases h2 : y < x
          · simp [h1, h2] at hab
          · have hxy : x = y := le_antisymm (not_lt.mp h2) (not_lt.mp h1)
            subst hxy
            by_cases h3 : x < z
            · simp [h3]
            · by_cases h4 : z < x
              · simp [h3, h4] at hbc
              · have hab' : lexLe as bs = true := by simpa [h1, h2] using hab
                have hbc' : lexLe bs cs = true := by simpa [h3, h4] using hbc
                simp [h3, h4, ih bs cs hab' hbc']

instance : IsTotal (List Char) (fun a b => lexLe a b = true) := ⟨lexLe_total⟩

instance : IsTrans (List Char) (fun a b => lexLe a b = true) :=
  ⟨fun a b c => lexLe_trans a b c⟩

/-- Elements of a key-deduplicated list come from the original list. -/
theorem mem_of_mem_dedupByAux {α β : Type} [DecidableEq β] (key : α → β) :
    ∀ (l : List α) (seen : List β) (x : α), x ∈ dedupByAux key l seen → x ∈ l := by
  intro l
  induction l with
  | nil => intro seen x hx; simp [dedupByAux] at hx
  | cons a l ih =>
    intro seen x hx
    unfold dedupByAux at hx
    by_cases h : key a ∈ seen
    · rw [if_pos h] at hx
      exact List.mem_cons_of_mem a (ih seen x hx)
    · rw [if_neg h] at hx
      rcases List.mem_cons.mp hx with hx | hx
      · exact hx ▸ List.mem_cons_self a l
      · exact List.mem_cons_of_mem a (ih _ x hx)

/-- Keys of a deduplicated list avoid the seen set. -/
theorem key_not_seen_of_mem_dedupByAux {α β : Type} [DecidableEq β] (key : α → β) :
    ∀ (l : List α) (seen : List β) (x : α), x ∈ dedupByAux key l seen → key x ∉ seen := by
  intro l
  induction l with
  | nil => intro seen x hx; simp [dedupByAux] at hx
  | cons a l ih =>
    intro seen x hx
    unfold dedupByAux at hx
    by_cases h : key a ∈ seen
    · rw [if_pos h] at hx
      exact ih seen x hx
    · rw [if_neg h] at hx
      rcases List.mem_cons.mp hx with hx | hx
      · exact hx ▸ h
      · intro hmem
        exact ih _ x hx (List.mem_cons_of_mem _ hmem)

/-- A key-deduplicated list has pairwise distinct keys. -/
theorem pairwise_dedupByAux {α β : Type} [DecidableEq β] (key : α → β) :
    ∀ (l : List α) (seen : List β),
      List.Pairwise (fun a b => key a ≠ key b) (dedupByAux key l seen) := by
  intro l
  induction l with
  | nil => intro seen; simp [dedupByAux]
  | cons a l ih =>
    intro seen
    unfold dedupByAux
    by_cases h : key a ∈ seen
    · rw [if_pos h]
      exact ih seen
    · rw [if_neg h]
      refine List.pairwise_cons.mpr ⟨?_, ih _⟩
      intro b hb
      have := key_not_seen_of_mem_dedupByAux key l (key a :: seen) b hb
      intro hcontra
      exact this (hcontra ▸ List.mem_cons_self _ _)

/-- `dedupBy id` yields a duplicate-free list. -/
theorem nodup_dedupBy_id {α : Type} [DecidableEq α] (l : List α) : (dedupBy id l).Nodup := by
  have := pairwise_dedupByAux (id : α → α) l []
  simpa [dedupBy, List.Nodup] using this

/-- Words selected by the sensational filter belong to the vocabulary. -/
theorem mem_sensational_of_mem_sensationalWords {t w : Text}
    (h : w ∈ sensationalWords t) : w ∈ SENSATIONAL :=
  of_decide_eq_true (List.mem_filter.mp h).2

/-- A sample analysis record with no provider content. -/
def aW : Analysis :=
  { sentiment_magnitude := 0, sentences := [], entities := [], categories := [] }

/-- Counterexample to claim C7: on the fallback path the sensational-term
list is the raw occurrence list; the text "cure cure banned" yields
["cure", "cure", "banned"], which has a duplicate (and is not sorted). -/
theorem claim_C7_counterexample :
    (classify_text (txt "cure cure banned") none).insights.sensational_terms =
      [txt "cure", txt "cure", txt "banned"]
    ∧ ¬((classify_text (txt "cure cure banned") none).insights.sensational_terms).Nodup := by
  refine ⟨by decide, ?_⟩
  intro h
  rw [show (classify_text (txt "cure cure banned") none).insights.sensational_terms =
    [txt "cure", txt "cure", txt "banned"] by decide] at h
  exact (List.pairwise_cons.mp h).1 (txt "cure") (List.mem_cons_self _ _) rfl

/-- Claim C7, amended: on the provider path `sensational_terms` is at most
10 distinct vocabulary words sorted lexicographically; on the fallback path
it is the first at-most-10 sensational-word occurrences in text order
(lowercase vocabulary words, but possibly duplicated and unsorted). -/
theorem claim_C7_amended :
    (∀ (t : Text) (a : Analysis),
      ((classify_text t (some a)).insights.sensational_terms).length ≤ 10
      ∧ ((classify_text t (some a)).insights.sensational_terms).Nodup
      ∧ List.Sorted (fun x y => lexLe x y = true)
          ((classify_text t (some a)).insights.sensational_terms)
      ∧ ∀ w ∈ (classify_text t (some a)).insights.sensational_terms, w ∈ SENSATIONAL)
    ∧ (∀ t : Text,
      (classify_text t none).insights.sensational_terms = (sensationalWords t).take 10
      ∧ ((classify_text t none).insights.sensational_terms).length ≤ 10
      ∧ ∀ w ∈ (classify_text t none).insights.sensational_terms, w ∈ SENSATIONAL) := by
  constructor
  · intro t a
    have hL : (classify_text t (some a)).insights.sensational_terms =
        (List.insertionSort (fun x y : Text => lexLe x y = true)
          (dedupBy id (sensationalWords t))).take 10 := rfl
    have hnodupSort : (List.insertionSort (fun x y : Text => lexLe x y = true)
        (dedupBy id (sensationalWords t))).Nodup :=
      (List.perm_insertionSort _ _).nodup_iff.mpr (nodup_dedupBy_id _)
    refine ⟨?_, ?_, ?_, ?_⟩
    · rw [hL]
      exact List.length_take_le 10 _
    · rw [hL]
      exact List.Pairwise.sublist (List.take_sublist _ _) hnodupSort
    · rw [hL]
      exact List.Pairwise.sublist (List.take_sublist _ _)
        (List.sorted_insertionSort (fun x y : Text => lexLe x y = true) _)
    · intro w hw
      rw [hL] at hw
      have h1 : w ∈ List.insertionSort (fun x y : Text => lexLe x y = true)
          (dedupBy id (sensationalWords t)) := (List.take_sublist _ _).subset hw
      have h2 : w ∈ dedupBy id (sensationalWords t) :=
        (List.perm_insertionSort _ _).subset h1
      exact mem_sensational_of_mem_sensationalWords
        (mem_of_mem_dedupByAux id (sensationalWords t) [] w h2)
  · intro t
    refine ⟨rfl, List.length_take_le 10 _, ?_⟩
    intro w hw
    exact mem_sensational_of_mem_sensationalWords ((List.take_sublist _ _).subset hw)

/-- Witness for claim C7 at the texts "cure" (provider path) and "banned"
(fallback path). -/
theorem claim_C7_amended_witness :
    txt "cure" ∈ SENSATIONAL ∧ txt "banned" ∈ SENSATIONAL :=
  ⟨(claim_C7_amended.1 (txt "cure") aW).2.2.2 (txt "cure") (by decide),
    (claim_C7_amended.2 (txt "banned")).2.2 (txt "banned") (by decide)⟩

/-- Unfolding equation of `dedupByAux` for a seen key. -/
theorem dedupByAux_cons_mem {α β : Type} [DecidableEq β] {key : α → β} {x : α}
    {l : List α} {seen : List β} (h : key x ∈ seen) :
    dedupByAux key (x :: l) seen = dedupByAux key l seen := by
  show (if key x ∈ seen then dedupByAux key l seen
    else x :: dedupByAux key l (key x :: seen)) = dedupByAux key l seen
  rw [if_pos h]

/-- Unfolding equation of `dedupByAux` for a new key. -/
theorem dedupByAux_cons_not_mem {α β : Type} [DecidableEq β] {key : α → β} {x : α}
    {l : List α} {seen : List β} (h : key x ∉ seen) :
    dedupByAux key (x :: l) seen = x :: dedupByAux key l (key x :: seen) := by
  show (if key x ∈ seen then dedupByAux key l seen
    else x :: dedupByAux key l (key x :: seen)) = x :: dedupByAux key l (key x :: seen)
  rw [if_neg h]

/-- The skip/dedup/break loop equals skip-filtering, key-deduplicating,
mapping and capping, for any seen-set and accumulator not yet full. -/
theorem dedupCapAux_eq {α β γ : Type} [DecidableEq β] (key : α → β) (out : α → γ)
    (skip : α → Bool) (cap : Nat) :
    ∀ (xs : List α) (seen : List β) (acc : List γ), acc.length < cap →
      dedupCapAux key out skip cap xs seen acc =
        acc.reverse ++
          ((dedupByAux key (xs.filter (fun x => !skip x)) seen).map out).take
            (cap - acc.length) := by
  intro xs
  induction xs with
  | nil =>
    intro seen acc _
    simp [dedupCapAux, dedupByAux]
  | cons x xs ih =>
    intro seen acc hlen
    unfold dedupCapAux
    by_cases hskip : skip x = true
    · rw [if_pos hskip, ih seen acc hlen,
        List.filter_cons_of_neg (by simp [hskip])]
    · rw [if_neg hskip, List.filter_cons_of_pos (by simp [hskip])]
      by_cases hseen : key x ∈ seen
      · rw [if_pos hseen, ih seen acc hlen, dedupByAux_cons_mem hseen]
      · rw [if_neg hseen, dedupByAux_cons_not_mem hseen]
        by_cases hcap : cap ≤ acc.length + 1
        · rw [if_pos hcap]
          have hc : cap - acc.length = 1 := by omega
          rw [hc, List.map_cons, List.take_succ_cons, List.take_zero,
            List.reverse_cons]
        · rw [if_neg hcap]
          have hlt : (out x :: acc).length < cap := by
            simp only [List.length_cons]
            omega
          rw [ih _ _ hlt]
          have hc : cap - acc.length = (cap - (out x :: acc).length) + 1 := by
            simp only [List.length_cons]
            omega
          rw [hc, List.map_cons, List.take_succ_cons, List.reverse_cons,
            List.append_assoc]
          rfl

/-- The loop entry point equals the filter/dedup/map/take pipeline. -/
theorem dedupCap_eq {α β γ : Type} [DecidableEq β] (key : α → β) (out : α → γ)
    (skip : α → Bool) (cap : Nat) (hcap : 0 < cap) (l : List α) :
    dedupCap key out skip cap l =
      ((dedupBy key (l.filter (fun x => !skip x))).map out).take cap := by
  unfold dedupCap dedupBy
  rw [dedupCapAux_eq key out skip cap l [] [] (by simpa using hcap)]
  simp

/-- Deduplicating by a composed key then mapping equals mapping first and
deduplicating by the outer key. -/
theorem map_dedupByAux_comp {α β γ : Type} [DecidableEq γ] (f : α → β) (key : β → γ) :
    ∀ (l : List α) (seen : List γ),
      (dedupByAux (fun a => key (f a)) l seen).map f = dedupByAux key (l.map f) seen := by
  intro l
  induction l with
  | nil => intro seen; simp [dedupByAux]
  | cons a l ih =>
    intro seen
    by_cases h : key (f a) ∈ seen
    · simp [dedupByAux, h, ih]
    · simp [dedupByAux, h, ih]

/-- `dedupBy` version of the composed-key lemma. -/
theorem map_dedupBy_comp {α β γ : Type} [DecidableEq γ] (f : α → β) (key : β → γ)
    (l : List α) :
    (dedupBy (fun a => key (f a)) l).map f = dedupBy key (l.map f) := by
  unfold dedupBy
  exact map_dedupByAux_comp f key l []

/-- Dropping a satisfied prefix skips it entirely. -/
theorem dropWhile_append_all {p : Char → Bool} :
    ∀ {a : List Char}, (∀ c ∈ a, p c = true) →
      ∀ b : List Char, (a ++ b).dropWhile p = b.dropWhile p := by
  intro a
  induction a with
  | nil => intro _ b; rfl
  | cons c cs ih =>
    intro h b
    have hc : p c = true := h c (List.mem_cons_self _ _)
    rw [List.cons_append, List.dropWhile_cons, if_pos hc]
    exact ih (fun x hx => h x (List.mem_cons_of_mem _ hx)) b

/-- Trailing whitespace does not change the stripped text. -/
theorem pyStrip_append_ws {s w : Text} (h : ∀ c ∈ w, c.isWhitespace = true) :
    pyStrip (s ++ w) = pyStrip s := by
  unfold pyStrip
  rw [List.dropWhile_append]
  by_cases hd : (s.dropWhile Char.isWhitespace).isEmpty = true
  · rw [if_pos hd]
    rw [List.dropWhile_eq_nil_iff.mpr h, List.isEmpty_iff.mp hd]
  · rw [if_neg hd, List.reverse_append,
      dropWhile_append_all (fun c hc => h c (List.mem_reverse.mp hc))]

/-- A two-element notables list with equal entries produces the same loop
output as the singleton. -/
theorem dedupCap_pair_eq (sk : Text → Bool) (a : Text) :
    dedupCap pyLower id sk 2 [a, a] = dedupCap pyLower id sk 2 [a] := by
  by_cases ha : sk a = true
  · simp [dedupCap, dedupCapAux, ha]
  · simp [dedupCap, dedupCapAux, ha]

/-- Claim C9: the explanation composer emits exactly the condition-guarded
lines of §4.5, in the fixed order, with the stated dedup/cap/truncation
pipelines and a generic fallback line when nothing fires; and two notable
sentences identical except for trailing whitespace produce one line. -/
theorem claim_C9_composer (f : Features) (i : Insights) :
    composeExplanation f i = specComposeExplanation f i
    ∧ ∀ (s ws : Text), (∀ c ∈ ws, c.isWhitespace = true) →
        composeExplanation f { i with notable_sentences := [s, s ++ ws] } =
          composeExplanation f { i with notable_sentences := [s] } := by
  constructor
  · simp only [composeExplanation, specComposeExplanation]
    rw [dedupCap_eq (fun c => pyLower (shortenCat c)) shortenCat (fun c => c.isEmpty) 3
        (by norm_num) f.categories,
      dedupCap_eq (fun e => pyLower (pyStrip e.name)) entityDisplayName
        (fun e => e.name.isEmpty) 4 (by norm_num) i.key_entities,
      dedupCap_eq pyLower id (fun s => s.isEmpty) 2 (by norm_num)
        (i.notable_sentences.map pyStrip),
      map_dedupBy_comp shortenCat pyLower, List.map_id]
  · intro s ws hws
    simp only [composeExplanation, List.map]
    rw [pyStrip_append_ws hws, dedupCap_pair_eq]

/-- Witness for claim C9 at the sample features/insights and the notable
sentence "a" with trailing blank. -/
theorem claim_C9_composer_witness :
    composeExplanation fW iW = specComposeExplanation fW iW
    ∧ composeExplanation fW { iW with notable_sentences := [txt "a", txt "a" ++ txt " "] } =
        composeExplanation fW { iW with notable_sentences := [txt "a"] } :=
  ⟨(claim_C9_composer fW iW).1,
    (claim_C9_composer fW iW).2 (txt "a") (txt " ") (by decide)⟩

/-- The concrete end-to-end input of the §8 spec test. -/
def c8input : Text := txt "BREAKING!!! Scientists SHOCKED by new miracle cure"

/-- The signal-extractor penalty of the classified (title-doubled) text. -/
theorem c8_penalty : text_red_flags (verifyClassifiedText c8input) = 11/20 := by
  have hu : upperCount (verifyClassifiedText c8input) = 32 := by decide
  have hl : (verifyClassifiedText c8input).length = 102 := by decide
  have he : exclamCount (verifyClassifiedText c8input) = 6 := by decide
  have hh : sensationalHits (verifyClassifiedText c8input) = 4 := by decide
  unfold text_red_flags capsRatio
  rw [hu, hl, he, hh]
  norm_num

/-- Rendering of the concrete penalty in the explanation line. -/
theorem c8_fmt : formatFixed 2 (11/20 : ℚ) = txt "0.55" := by
  have h55 : pyRound ((11:ℚ)/20 * 10 ^ 2) = 55 := by
    unfold pyRound
    norm_num
  unfold formatFixed
  rw [h55]
  decide

/-- The fallback features of the classified end-to-end text. -/
def c8features : Features :=
  { sensational_penalty := 11/20, sentiment_magnitude := 0, entity_wiki_hits := 0,
    categories := [] }

/-- The fallback insights of the classified end-to-end text. -/
def c8insights : Insights :=
  { key_entities := [],
    sensational_terms := [txt "miracle", txt "cure", txt "miracle", txt "cure"],
    notable_sentences := [txt "BREAKING!!!", txt "Scientists SHOCKED by new miracle cure."] }

/-- The classifier features on the end-to-end input. -/
theorem c8_features :
    (classify_text (verifyClassifiedText c8input) none).features = c8features := by
  show ({ sensational_penalty := text_red_flags (verifyClassifiedText c8input)
          sentiment_magnitude := 0
          entity_wiki_hits := 0
          categories := [] } : Features) = c8features
  rw [c8_penalty]
  rfl

/-- The classifier insights on the end-to-end input. -/
theorem c8_insights :
    (classify_text (verifyClassifiedText c8input) none).insights = c8insights := by
  decide

/-- The sensational-penalty explanation line of the end-to-end input. -/
def c8line1 : Text := txt "Sensational writing patterns detected (penalty 0.55)"

/-- The full composed explanation of the end-to-end input. -/
def c8lines : List Text :=
  [c8line1,
   txt "Sensational terms in text: miracle, cure",
   txt "Notable line: \"BREAKING!!!\"",
   txt "Notable line: \"Scientists SHOCKED by new miracle cure.\""]

/-- Composer output on the end-to-end fallback features/insights. -/
theorem c8_compose : composeExplanation c8features c8insights = c8lines := by
  simp only [composeExplanation, c8features, c8insights]
  rw [if_pos (by norm_num : ((11:ℚ)/20) > 0)]
  rw [if_neg (by norm_num : ¬((0:ℚ) ≥ 1))]
  rw [c8_fmt]
  decide

/-- The `/verify` explanation on the end-to-end input with no providers. -/
theorem c8_explanation : (verifyNoProvider c8input).2 = c8lines := by
  show (mergeVerdict (classify_text (verifyClassifiedText c8input) none)
    (composeExplanation (classify_text (verifyClassifiedText c8input) none).features
      (classify_text (verifyClassifiedText c8input) none).insights) none []).2 = c8lines
  rw [c8_features, c8_insights, c8_compose]
  simp [mergeVerdict, c8lines]

/-- Counterexample to claim C8: on the concrete §8 input the composed
explanation does not contain the generic fallback line (the penalty line
and others fire instead). -/
theorem claim_C8_counterexample : genericLine ∉ (verifyNoProvider c8input).2 := by
  rw [c8_explanation]
  decide

/-- Claim C8, amended: on the §8 input with no providers the computed
penalty is 0.55 ≥ 0.5, the result is exactly uncertain/50/0.3, and the
explanation opens with the sensational-penalty line; the generic fallback
line does not appear (it is emitted only when no other line fires). -/
theorem claim_C8_amended :
    text_red_flags (verifyClassifiedText c8input) ≥ 1/2
    ∧ (verifyNoProvider c8input).1.label = txt "uncertain"
    ∧ (verifyNoProvider c8input).1.score = 50
    ∧ (verifyNoProvider c8input).1.confidence = 3/10
    ∧ (verifyNoProvider c8input).2 = c8lines
    ∧ c8lines.head? = some c8line1
    ∧ genericLine ∉ c8lines := by
  refine ⟨?_, rfl, rfl, rfl, c8_explanation, rfl, by decide⟩
  rw [c8_penalty]
  norm_num

end VerifiAI
